import Mathlib

/-!
# Verification of the trailcam clip-review core

Shallow embedding of the clip review state machine, the threaded playback
engine, the session persistence layer and the two video decode backends of
the `trailcam_animal_id` repository, together with proofs of the spec's
claims about them.

Conventions:
* Python floats are modelled as rationals (`ℚ`); the float operations in
  scope (`max`, comparison, `round`, division by positive integers) are
  exact on the values the program uses.
* Stateful Python methods become functions on explicit state records.
* Python exceptions become `Except`/`Option` results.
-/

namespace Trailcam

/-! ## VideoPlayer speed handling (`src/gui/video_player.py`)

`VideoPlayer.set_speed` stores `max(0.1, multiplier)`; the playback loop
computes the per-tick frame step as `max(1, int(round(speed_multiplier)))`.
Python's `round` on floats is round-half-to-even. -/

/-- Python's `round` (round half to even) on an exact rational value. -/
def pyRound (q : ℚ) : ℤ :=
  let f : ℤ := ⌊q⌋
  let r : ℚ := q - (f : ℚ)
  if r < 1/2 then f
  else if (1:ℚ)/2 < r then f + 1
  else if f % 2 = 0 then f else f + 1

/-- `VideoPlayer.set_speed`: `self.speed_multiplier = max(0.1, multiplier)`. -/
def set_speed (multiplier : ℚ) : ℚ := max (1/10) multiplier

/-- The per-tick frame step of `VideoPlayer._playback_loop`:
`frame_step = max(1, int(round(self.speed_multiplier)))`. -/
def frame_step (speed_multiplier : ℚ) : ℤ :=
  max 1 (pyRound speed_multiplier)

/-! ## Session persistence (`src/gui/session_manager.py`) -/

/-- The JSON values `json.load` can produce. -/
inductive PyJson where
  | null : PyJson
  | jbool : Bool → PyJson
  | jnum : ℚ → PyJson
  | jstr : String → PyJson
  | jarr : List PyJson → PyJson
  | jobj : List (String × PyJson) → PyJson

/-- Python `dict.get`: first binding of the key, if any. -/
def jsonGet (kvs : List (String × PyJson)) (key : String) : Option PyJson :=
  (kvs.find? (fun kv => kv.1 = key)).map (fun kv => kv.2)

/-- The possible outcomes of opening and JSON-parsing the session file. -/
inductive FileRead where
  | absent : FileRead
  | osError : FileRead
  | invalidJson : FileRead
  | parsed : PyJson → FileRead

/-- `SessionManager.load_state`, embedded over the parse outcome of
`session.json`.  A missing file returns `None`; `json.JSONDecodeError` and
`OSError` are caught and return `None`; a parsed object is accepted iff its
`version` entry is the string `"1.0"`.  A parsed value that is not a dict
(e.g. a top-level array) makes `state.get('version')` raise
`AttributeError`, which is not in the `except` tuple and propagates. -/
def load_state (f : FileRead) : Except String (Option PyJson) :=
  match f with
  | .absent => .ok none
  | .osError => .ok none
  | .invalidJson => .ok none
  | .parsed j =>
    match j with
    | .jobj kvs =>
      match jsonGet kvs "version" with
      | some (.jstr "1.0") => .ok (some (.jobj kvs))
      | _ => .ok none
    | _ => .error "AttributeError"

/-- In-memory state of `SessionManager` (the fields `save_state` serializes). -/
structure SMState where
  current_clip_index : ℤ
  clips_directory : Option String
  csv_path : Option String

/-- The filesystem operations `save_state` can be observed to perform. -/
inductive FsOp where
  | openTrunc : String → FsOp
  | write : String → PyJson → FsOp
  | close : String → FsOp
  | rename : String → String → FsOp

/-- The session file path returned by `SessionManager._get_config_path`
(platform config dir joined with `session.json`); kept abstract up to the
fixed file name. -/
def sessionPath : String := "<user_config_dir>/session.json"

/-- The JSON object `save_state` serializes. -/
def save_state_json (s : SMState) (now : String) (prefs : PyJson) : PyJson :=
  .jobj
    [ ("version", .jstr "1.0")
    , ("last_updated", .jstr now)
    , ("session", .jobj
        [ ("clips_directory",
            match s.clips_directory with
            | some d => .jstr d
            | none => .null)
        , ("current_clip_index", .jnum (s.current_clip_index : ℚ))
        , ("csv_path",
            match s.csv_path with
            | some p => .jstr p
            | none => .null) ])
    , ("preferences", prefs) ]

/-- The filesystem trace of `SessionManager.save_state`: it opens the
session file itself with mode `'w'` (truncating it), dumps the JSON into
it and closes it.  There is no temporary file and no rename. -/
def save_state_trace (s : SMState) (now : String) (prefs : PyJson) : List FsOp :=
  [ .openTrunc sessionPath
  , .write sessionPath (save_state_json s now prefs)
  , .close sessionPath ]

/-- Outcome of the file write attempted by `save_state`. -/
inductive WriteOutcome where
  | success : WriteOutcome
  | osError : WriteOutcome

/-- Control-flow result of `SessionManager.save_state`: the body is wrapped
in `try ... except OSError: pass`, so both outcomes return normally. -/
def save_state_run (w : WriteOutcome) : Except String Unit :=
  match w with
  | .success => .ok ()
  | .osError => .ok ()

/-- Modelled from the spec: the write-then-replace discipline claimed for
`save(session)` — the target file is never opened or written directly; it
is only ever replaced wholesale by a rename, and such a rename occurs. -/
def writeThenReplace (trace : List FsOp) (target : String) : Bool :=
  (trace.any (fun op =>
    match op with
    | .rename _ dst => dst = target
    | _ => false)) &&
  (trace.all (fun op =>
    match op with
    | .openTrunc p => p ≠ target
    | .write p _ => p ≠ target
    | _ => true))

/-- Whether a trace contains any rename at all. -/
def hasRename (trace : List FsOp) : Bool :=
  trace.any (fun op =>
    match op with
    | .rename _ _ => true
    | _ => false)

/-- A concrete `SessionManager` state used for concrete evaluations. -/
def smSample : SMState :=
  { current_clip_index := 3
  , clips_directory := some "/clips"
  , csv_path := some "/clips/.pipeline_output/detection_csvs/animals_in_videos.csv" }

/-! ## Decode backends and channel order
(`src/gui/video_player.py`, `src/gui/video_client.py`, `src/video_backend.py`)

A pixel is identified by its true red/green/blue intensities; a delivered
frame pixel is the list of channel values in delivery order. -/

/-- Ground-truth pixel colour. -/
structure RGBPixel where
  r : ℕ
  g : ℕ
  b : ℕ

/-- `cv2.VideoCapture.read` delivers pixel channels in BGR order. -/
def cv2ReadChannels (p : RGBPixel) : List ℕ := [p.b, p.g, p.r]

/-- `cv2.cvtColor(•, cv2.COLOR_BGR2RGB)`: swaps the first and third
channel of each pixel. -/
def bgr2rgb (channels : List ℕ) : List ℕ :=
  match channels with
  | [c0, c1, c2] => [c2, c1, c0]
  | other => other

/-- Local backend: `VideoPlayer` reads directly from `cv2.VideoCapture`,
so the caller of `read` receives BGR. -/
def localRead (p : RGBPixel) : List ℕ := cv2ReadChannels p

/-- HTTP-proxied backend: `video_backend.py` reads via cv2 (BGR), converts
BGR→RGB (`video_backend.py` line 94), JPEG-encodes the RGB image;
`video_client.py` decodes the JPEG with PIL into an RGB array and returns
it as-is (`video_client.py` lines 111–115).  Channel order through the
JPEG transport is preserved. -/
def proxiedRead (p : RGBPixel) : List ℕ := bgr2rgb (cv2ReadChannels p)

/-- What `VideoPlayer._playback_loop` displays: it applies
`cv2.cvtColor(frame, cv2.COLOR_BGR2RGB)` unconditionally to whatever the
decode source returned (`video_player.py` line 193), then hands the result
to PIL as RGB. -/
def displayedChannels (readResult : List ℕ) : List ℕ := bgr2rgb readResult

/-! ## Clip records and the search filter (`src/gui/review_tab.py`) -/

/-- One entry of `ReviewTab.clips` as built by `_load_clips`: `animals` is
the raw `unique_animals` CSV field, replaced by the literal `'none'` when
that field is empty. -/
structure Clip where
  path : String
  title : String
  animals : String
  unique_animals : String
  multiple : Bool
deriving Repr, DecidableEq

/-- Python `str.lower()` (ASCII data). -/
def pyLower (s : String) : String := ⟨s.data.map Char.toLower⟩

/-- Prefix test on character lists (structural, kernel-reducible). -/
def listPrefix : List Char → List Char → Bool
  | [], _ => true
  | _ :: _, [] => false
  | a :: as, b :: bs => a = b && listPrefix as bs

/-- Contiguous-substring test on character lists. -/
def listInfix (needle : List Char) : List Char → Bool
  | [] => needle.isEmpty
  | c :: t => listPrefix needle (c :: t) || listInfix needle t

/-- Python's `in` operator on strings: contiguous substring test. -/
def pyIn (needle hay : String) : Bool :=
  listInfix needle.data hay.data

/-- Helper for Python `str.title()`: the Boolean argument records whether
the previous character was cased; a cased character after a non-cased one
is uppercased, any other cased character is lowercased. -/
def pyTitleAux : Bool → List Char → List Char
  | _, [] => []
  | prevCased, c :: cs =>
      (if c.isAlpha then (if prevCased then c.toLower else c.toUpper) else c)
        :: pyTitleAux c.isAlpha cs

/-- Python `str.split('&')` on character data. -/
def splitOnAmp : List Char → List (List Char)
  | [] => [[]]
  | c :: cs =>
    if c = '&' then [] :: splitOnAmp cs
    else
      match splitOnAmp cs with
      | [] => [[c]]
      | r :: rs => (c :: r) :: rs

/-- Join character-list tokens with `", "` (Python `', '.join`). -/
def joinCommaSpace : List (List Char) → List Char
  | [] => []
  | [x] => x
  | x :: xs => x ++ [',', ' '] ++ joinCommaSpace xs

/-- `ReviewTab._format_animal_names`: `"No animals"` for an empty or
`'none'` raw string, otherwise split on `'&'`, replace underscores by
spaces, title-case each token and join with `", "`. -/
def formatAnimalNames (animals_raw : String) : String :=
  if animals_raw = "" then "No animals"
  else if animals_raw = "none" then "No animals"
  else
    ⟨joinCommaSpace ((splitOnAmp animals_raw.data).map (fun a =>
        pyTitleAux false (a.map (fun c => if c = '_' then ' ' else c))))⟩

/-- The per-clip show/hide condition of `ReviewTab._on_search_changed`: the
clip's frame is packed (visible) iff the lowercased query is empty
(Python's `not search_text`) or is a substring of the lowercased title or
of the lowercased raw `animals` field. -/
def visibleInSearch (query : String) (c : Clip) : Bool :=
  let search_text := pyLower query
  decide (search_text = "") ||
    pyIn search_text (pyLower c.title) ||
    pyIn search_text (pyLower c.animals)

/-- Modelled from the spec: claim C5's matching condition — a clip is
visible iff the query is empty or whitespace-only, or the lowercased query
is a substring of the lowercased title or of the lowercased human-readable
rendering of the animal list. -/
def specVisible (query : String) (c : Clip) : Bool :=
  let q := pyLower query
  q.data.all Char.isWhitespace ||
    pyIn q (pyLower c.title) ||
    pyIn q (pyLower (formatAnimalNames c.animals))

/-- Concrete clip whose raw animal field is `"red_fox&deer"`. -/
def clipFoxDeer : Clip :=
  { path := "/clips/clip1.mp4"
  , title := "clip1"
  , animals := "red_fox&deer"
  , unique_animals := "red_fox&deer"
  , multiple := true }

/-! ## The review session state machine (`src/gui/review_tab.py`)

A `VideoPlayer` instance is abstracted to whether its pacing loop is
signalled to run (`running`) and whether its decode source is open
(`cap` not released).  `TabState.engines` lists every engine created so
far, most recent first; the head is `self.player`.  Tk's `after`
scheduling of `_advance_after_pause` is modelled by a counter of pending
scheduled callbacks (`_on_video_complete` discards the `after` id, so no
operation can cancel a pending callback). -/

/-- Abstraction of one `VideoPlayer`. -/
structure Engine where
  running : Bool
  capOpen : Bool
deriving Repr, DecidableEq

/-- State of `ReviewTab` relevant to navigation, deletion and playback. -/
structure TabState where
  clips : List Clip
  current_index : Option ℕ
  skip_delete_confirmation : Bool
  engines : List Engine
  pending_advance : ℕ
  overlay_visible : Bool
  trashed : List String
  auto_play : Bool
deriving Repr

/-- Number of engines whose decode source is currently open. -/
def liveSources (s : TabState) : ℕ :=
  (s.engines.filter (fun e => e.capOpen)).length

/-- Number of engines whose pacing loop is signalled to run. -/
def runningEngines (s : TabState) : ℕ :=
  (s.engines.filter (fun e => e.running)).length

/-- Every engine other than the current one has been fully stopped
(its loop signalled to exit and its decode source released). -/
def retiredDead (s : TabState) : Bool :=
  s.engines.tail.all (fun e => !e.capOpen && !e.running)

/-- `if self.player: self.player.stop()` — `VideoPlayer.stop` clears
`running` and releases the capture. -/
def stopPlayerOp (s : TabState) : TabState :=
  match s.engines with
  | [] => s
  | _ :: rest => { s with engines := ⟨false, false⟩ :: rest }

/-- The intermediate states of `ReviewTab._play_clip(index)` in program
order: bounds check; stop the current player; set `current_index`;
construct the new `VideoPlayer` (no capture yet); `load_video` (capture
opened); `start` (loop running).  An out-of-range index returns
immediately. -/
def playClipSteps (s : TabState) (index : ℕ) : List TabState :=
  if index < s.clips.length then
    let s1 := stopPlayerOp s
    let s2 := { s1 with current_index := some index }
    let s3 := { s2 with engines := ⟨false, false⟩ :: s2.engines }
    let s4 := { s2 with engines := ⟨false, true⟩ :: s2.engines }
    let s5 := { s2 with engines := ⟨true, true⟩ :: s2.engines }
    [s, s1, s2, s3, s4, s5]
  else [s]

/-- `ReviewTab._play_clip`: the final state of its step sequence. -/
def playClip (s : TabState) (index : ℕ) : TabState :=
  (playClipSteps s index).getLastD s

/-- `ReviewTab._on_video_complete`: with auto-play on it shows the
countdown overlay and schedules `_advance_after_pause` via
`self.video_label.after(...)`, whose id is not stored; with auto-play off
it only shows the static overlay (the scheduled callback merely hides
it). -/
def onVideoComplete (s : TabState) : TabState :=
  if s.auto_play then
    { s with overlay_visible := true, pending_advance := s.pending_advance + 1 }
  else
    { s with overlay_visible := true }

/-- `ReviewTab._next_clip`: hide the overlay; no-op when nothing is
loaded; play `current_index + 1` if in range, otherwise stop playback
(end of list).  It does not touch any scheduled callback. -/
def nextClip (s : TabState) : TabState :=
  let s0 := { s with overlay_visible := false }
  match s0.current_index with
  | none => s0
  | some i =>
    if s0.clips.isEmpty then s0
    else if i + 1 < s0.clips.length then playClip s0 (i + 1)
    else stopPlayerOp s0

/-- `ReviewTab._previous_clip`: hide the overlay; no-op when nothing is
loaded or already at index 0; otherwise play `current_index - 1`.
It does not touch any scheduled callback. -/
def previousClip (s : TabState) : TabState :=
  let s0 := { s with overlay_visible := false }
  match s0.current_index with
  | none => s0
  | some i =>
    if s0.clips.isEmpty then s0
    else if 1 ≤ i then playClip s0 (i - 1) else s0

/-- `ReviewTab._advance_after_pause` (the scheduled callback body): hide
the overlay and run `_next_clip`. -/
def advanceAfterPause (s : TabState) : TabState :=
  nextClip { s with overlay_visible := false }

/-- The Tk event loop running one pending scheduled
`_advance_after_pause` callback, if any is due. -/
def timerFire (s : TabState) : TabState :=
  match s.pending_advance with
  | 0 => s
  | n + 1 => advanceAfterPause { s with pending_advance := n }

/-- `ReviewTab._show_delete_confirmation`: returns
`(confirmed, dont_ask_again)`.  `on_no` ignores the checkbox, so
`dont_ask_again` can only be `true` together with a `Yes`. -/
def dialogResult (userYes checkbox : Bool) : Bool × Bool :=
  if userYes then (true, checkbox) else (false, false)

/-- The deletion body of `ReviewTab._delete_clip`, reached once
confirmation is settled: stop playback, move the clip's file to trash,
remove the record at `deleted_index = i` from the list, then either clear
`current_index` (list now empty) or play
`min(deleted_index, len(self.clips) - 1)` of the shortened list. -/
def deleteClipBody (s : TabState) (i : ℕ) (c : Clip) : TabState :=
  let s2 := stopPlayerOp s
  let s3 := { s2 with trashed := s2.trashed ++ [c.path] }
  let s4 := { s3 with clips := s3.clips.eraseIdx i }
  if s4.clips.isEmpty then { s4 with current_index := none }
  else playClip s4 (min i (s4.clips.length - 1))

/-- `ReviewTab._delete_clip` driven by the user's dialog interaction
(`userYes`: clicked Yes / pressed Return rather than No / Escape;
`checkbox`: state of the skip-confirmation checkbox).  The dialog is shown
only when `skip_delete_confirmation` is clear; `dont_ask_again` is applied
to the flag before the result is checked, and a `No` returns without
touching anything else.  `none` models the `IndexError` of
`self.clips[self.current_index]` (unreachable while the index invariant
holds). -/
def deleteClip (s : TabState) (userYes checkbox : Bool) : Option TabState :=
  match s.current_index with
  | none => some s
  | some i =>
    if s.clips.isEmpty then some s
    else
      match s.clips[i]? with
      | none => none
      | some c =>
        if s.skip_delete_confirmation then some (deleteClipBody s i c)
        else
          let r := dialogResult userYes checkbox
          let s1 := if r.2 then { s with skip_delete_confirmation := true } else s
          if r.1 then some (deleteClipBody s1 i c) else some s1

/-- Concrete clips for evaluating the state machine. -/
def clipA : Clip :=
  { path := "/clips/A.mp4", title := "A", animals := "deer"
  , unique_animals := "deer", multiple := false }

/-- Second concrete clip. -/
def clipB : Clip :=
  { path := "/clips/B.mp4", title := "B", animals := "red_fox"
  , unique_animals := "red_fox", multiple := false }

/-- Third concrete clip. -/
def clipC : Clip :=
  { path := "/clips/C.mp4", title := "C", animals := "none"
  , unique_animals := "", multiple := false }

/-- Session on a 3-clip catalog, clip `B` (index 1) playing, auto-play
enabled. -/
def threeClipState : TabState :=
  { clips := [clipA, clipB, clipC]
  , current_index := some 1
  , skip_delete_confirmation := false
  , engines := [⟨true, true⟩]
  , pending_advance := 0
  , overlay_visible := false
  , trashed := []
  , auto_play := true }

/-! ## One playback run of `VideoPlayer._playback_loop`

The run is modelled by the sequence of values delivered to the progress
callback.  `avail` is how many frames the capture can still deliver;
`tf` is `self.total_frames` (an `int` read from the capture, possibly 0
or negative for a broken file, hence `ℤ`); `speeds t` is the value of
`self.speed_multiplier` sampled on tick `t` (it may change live through
`set_speed`).  Pausing delays ticks without reporting anything, so it
does not alter the sequence. -/

/-- The skip phase of one tick (`for _ in range(frame_step - 1):
self.cap.grab()`): returns how many frames were successfully grabbed and
whether the stream ended mid-skip. -/
def grabPhase : ℕ → ℕ → ℕ × Bool
  | _, 0 => (0, false)
  | 0, _ + 1 => (0, true)
  | a + 1, k + 1 =>
    let r := grabPhase a k
    (r.1 + 1, r.2)

/-- The progress values reported from tick `t` onwards, with
`current_frame = cf` and `avail` frames left in the stream.  A failed
read or grab reports `1.0` and stops (completion); a successful tick
reads one frame, grabs `frame_step - 1` more, and reports
`min(1.0, current_frame / total_frames)` when `total_frames > 0`. -/
def playbackAux (speeds : ℕ → ℚ) (tf : ℤ) : ℕ → ℕ → ℕ → List ℚ
  | _, _, 0 => [1]
  | t, cf, a + 1 =>
    let step := (frame_step (speeds t)).toNat
    let g := grabPhase a (step - 1)
    if g.2 then [1]
    else
      let cf2 := cf + 1 + g.1
      (if 0 < tf then [min 1 ((cf2 : ℚ) / (tf : ℚ))] else []) ++
        playbackAux speeds tf (t + 1) cf2 (a - g.1)
  termination_by _ _ avail => avail
  decreasing_by simp_wf; omega

/-- One full natural playback run: the progress values reported between
`start()` and the completion callback. -/
def playbackRun (speeds : ℕ → ℚ) (tf : ℤ) (avail : ℕ) : List ℚ :=
  playbackAux speeds tf 0 0 avail

end Trailcam

namespace Trailcam

/-! ## Theorems -/

/-- C4: for every multiplier `m` (including 0 and negative values) the
stored speed multiplier is `max(0.1, m)` — in particular `0.1` whenever
`m ≤ 0` — and the pacing loop's effective frame step is
`max(1, round(stored))`, which is always at least 1, so a tick never has a
zero or negative frame step. -/
theorem speed_floor_and_step (m : ℚ) :
    set_speed m = max (1/10) m ∧
    (m ≤ 0 → set_speed m = 1/10) ∧
    frame_step (set_speed m) = max 1 (pyRound (set_speed m)) ∧
    1 ≤ frame_step (set_speed m) ∧
    0 < set_speed m := by
  refine ⟨rfl, ?_, rfl, le_max_left _ _, ?_⟩
  · intro hm
    have h : m ≤ (1:ℚ)/10 := le_trans hm (by norm_num)
    simpa [set_speed] using max_eq_left h
  · have : (0:ℚ) < 1/10 := by norm_num
    exact lt_of_lt_of_le this (le_max_left _ _)

/-- C4 witness: instantiated at the concrete multiplier `-2`. -/
theorem speed_floor_and_step_witness :
    set_speed (-2) = max (1/10) (-2) ∧
    ((-2:ℚ) ≤ 0 → set_speed (-2) = 1/10) ∧
    frame_step (set_speed (-2)) = max 1 (pyRound (set_speed (-2))) ∧
    1 ≤ frame_step (set_speed (-2)) ∧
    0 < set_speed (-2) :=
  speed_floor_and_step (-2)

/-- C7: `load_state` returns `None` when the file is absent, when reading
or parsing fails, and when the version is not the string `"1.0"`; but on a
file whose contents are the valid JSON array `[]` it raises
`AttributeError` instead of returning, because `state.get('version')` is
called on a list and `AttributeError` is not caught. -/
theorem load_state_eval :
    load_state .absent = .ok none ∧
    load_state .osError = .ok none ∧
    load_state .invalidJson = .ok none ∧
    load_state (.parsed (.jobj [("version", .jstr "0.9")])) = .ok none ∧
    load_state (.parsed (.jobj [("version", .jnum 1)])) = .ok none ∧
    load_state (.parsed (.jarr [])) = .error "AttributeError" :=
  ⟨rfl, rfl, rfl, rfl, rfl, rfl⟩

/-- C8 counterexample: `save_state` is not write-then-replace.  At a
concrete session state its filesystem trace opens the session file itself
with truncating mode `'w'` and performs no rename at all. -/
theorem save_state_not_write_then_replace :
    writeThenReplace (save_state_trace smSample "2026-10-12T00:00:00" .null)
        sessionPath = false ∧
    (save_state_trace smSample "2026-10-12T00:00:00" .null).any (fun op =>
      match op with
      | .openTrunc p => p = sessionPath
      | _ => false) = true ∧
    hasRename (save_state_trace smSample "2026-10-12T00:00:00" .null) = false := by
  refine ⟨?_, rfl, rfl⟩
  rfl

/-- C8 amended: `save_state` truncates and rewrites `session.json` in
place (open-for-write, dump, close — no temporary file, no rename), and
any `OSError` raised while writing is swallowed, so `save_state` always
returns normally. -/
theorem save_state_in_place_and_swallows (s : SMState) (now : String)
    (prefs : PyJson) (w : WriteOutcome) :
    save_state_run w = .ok () ∧
    hasRename (save_state_trace s now prefs) = false ∧
    (save_state_trace s now prefs).head? = some (.openTrunc sessionPath) ∧
    (save_state_trace s now prefs).all (fun op =>
      match op with
      | .openTrunc p => p = sessionPath
      | .write p _ => p = sessionPath
      | .close p => p = sessionPath
      | .rename _ _ => false) = true := by
  refine ⟨?_, rfl, rfl, ?_⟩
  · cases w <;> rfl
  · simp [save_state_trace, List.all, sessionPath]

/-- C9: the two decode backends do not deliver pixel channels in the same
order.  For a pure-blue pixel the local backend delivers `[255, 0, 0]`
(BGR, as cv2 does) while the HTTP-proxied backend delivers `[0, 0, 255]`
(RGB); the playback loop's unconditional BGR→RGB conversion therefore
displays the proxied pixel as pure red. -/
theorem channel_order_mismatch_eval :
    localRead ⟨0, 0, 255⟩ = [255, 0, 0] ∧
    proxiedRead ⟨0, 0, 255⟩ = [0, 0, 255] ∧
    localRead ⟨0, 0, 255⟩ ≠ proxiedRead ⟨0, 0, 255⟩ ∧
    displayedChannels (localRead ⟨0, 0, 255⟩) = [0, 0, 255] ∧
    displayedChannels (proxiedRead ⟨0, 0, 255⟩) = [255, 0, 0] := by
  refine ⟨rfl, rfl, ?_, rfl, rfl⟩
  decide

/-- Helper: `listPrefix` decides `List.IsPrefix`. -/
theorem listPrefix_iff (n h : List Char) : listPrefix n h = true ↔ n <+: h := by
  induction n generalizing h with
  | nil => simp [listPrefix]
  | cons a as ih =>
    cases h with
    | nil => simp [listPrefix]
    | cons b bs => simp [listPrefix, List.cons_prefix_cons, ih]

/-- Helper: `listInfix` decides `List.IsInfix`. -/
theorem listInfix_iff (n h : List Char) : listInfix n h = true ↔ n <:+: h := by
  induction h with
  | nil => cases n <;> simp [listInfix]
  | cons c t ih =>
    simp [listInfix, listPrefix_iff, ih, List.infix_cons_iff]

/-- C5 counterexample: the filter matches the raw animal string, not its
human-readable rendering, and a whitespace-only query does not show every
clip.  For the clip with raw animals `"red_fox&deer"` (rendered
`"Red Fox, Deer"`), the query `"red fox"` matches the rendering but the
code hides the clip; likewise the query `" "` leaves the clip hidden. -/
theorem search_matches_raw_not_rendered :
    formatAnimalNames "red_fox&deer" = "Red Fox, Deer" ∧
    visibleInSearch "red fox" clipFoxDeer = false ∧
    specVisible "red fox" clipFoxDeer = true ∧
    visibleInSearch " " clipFoxDeer = false ∧
    specVisible " " clipFoxDeer = true := by
  refine ⟨?_, ?_, ?_, ?_, ?_⟩ <;> decide

/-- C5 amended: a clip is visible iff the lowercased query is empty, or is
a substring of the lowercased title, or is a substring of the lowercased
raw ampersand-joined animal string (stored as `'none'` for clips without
animals); only the empty query shows every clip unconditionally. -/
theorem search_filter_amended (query : String) (c : Clip) :
    visibleInSearch query c = true ↔
      pyLower query = "" ∨
      (pyLower query).data <:+: (pyLower c.title).data ∨
      (pyLower query).data <:+: (pyLower c.animals).data := by
  simp only [visibleInSearch, Bool.or_eq_true, decide_eq_true_eq, pyIn,
    listInfix_iff, or_assoc]

/-- Helper: a list of engines that are all fully stopped contributes no
live capture and no running loop. -/
theorem allDead_filters (es : List Engine)
    (h : es.all (fun e => !e.capOpen && !e.running) = true) :
    es.filter (fun e => e.capOpen) = [] ∧ es.filter (fun e => e.running) = [] := by
  rw [List.all_eq_true] at h
  constructor
  · refine List.filter_eq_nil_iff.mpr fun e he => ?_
    have h' := h e he
    simp only [Bool.and_eq_true, Bool.not_eq_true'] at h'
    simp [h'.1]
  · refine List.filter_eq_nil_iff.mpr fun e he => ?_
    have h' := h e he
    simp only [Bool.and_eq_true, Bool.not_eq_true'] at h'
    simp [h'.2]

/-- Helper: `stopPlayerOp` leaves every field but `engines` unchanged. -/
@[simp]
theorem stopPlayerOp_fields (s : TabState) :
    (stopPlayerOp s).clips = s.clips ∧
    (stopPlayerOp s).current_index = s.current_index ∧
    (stopPlayerOp s).skip_delete_confirmation = s.skip_delete_confirmation ∧
    (stopPlayerOp s).trashed = s.trashed ∧
    (stopPlayerOp s).pending_advance = s.pending_advance := by
  unfold stopPlayerOp
  cases s.engines <;> exact ⟨rfl, rfl, rfl, rfl, rfl⟩

/-- Helper: after `stopPlayerOp`, every engine in the session is fully
stopped, provided every retired engine already was. -/
theorem stop_all_dead (s : TabState) (h : retiredDead s = true) :
    (stopPlayerOp s).engines.all (fun e => !e.capOpen && !e.running) = true := by
  unfold retiredDead at h
  unfold stopPlayerOp
  cases hs : s.engines with
  | nil => simp [hs]
  | cons e rest =>
    rw [hs] at h
    simp only [List.tail_cons] at h
    simpa using h

/-- Helper: with all retired engines dead, at most the current engine has
a live capture or a running loop. -/
theorem retired_counts (s : TabState) (h : retiredDead s = true) :
    liveSources s ≤ 1 ∧ runningEngines s ≤ 1 := by
  unfold liveSources runningEngines
  unfold retiredDead at h
  cases hs : s.engines with
  | nil => simp [hs]
  | cons e rest =>
    rw [hs] at h
    simp only [List.tail_cons] at h
    obtain ⟨hc, hr⟩ := allDead_filters rest h
    constructor
    · rw [List.filter_cons]
      split <;> simp [hc]
    · rw [List.filter_cons]
      split <;> simp [hr]

/-- Helper: explicit form of `_play_clip` at a valid index. -/
theorem playClip_eq (s : TabState) (i : ℕ) (h : i < s.clips.length) :
    playClip s i =
      { stopPlayerOp s with
        current_index := some i
        engines := ⟨true, true⟩ :: (stopPlayerOp s).engines } := by
  simp [playClip, playClipSteps, h]

/-- Helper: `_play_clip` never changes the skip-confirmation flag. -/
@[simp]
theorem playClip_skip (s : TabState) (j : ℕ) :
    (playClip s j).skip_delete_confirmation = s.skip_delete_confirmation := by
  by_cases h : j < s.clips.length
  · rw [playClip_eq s j h]
    exact (stopPlayerOp_fields s).2.2.1
  · simp [playClip, playClipSteps, h]

/-- C2: `_play_clip` at a valid index stops the current engine (loop
signalled to exit, capture released) strictly before the new engine is
created and started: at every intermediate state of the call at most one
decode source is open and at most one pacing loop is running, and
afterwards every non-current engine is fully stopped again. -/
theorem single_engine_invariant (s : TabState) (i : ℕ)
    (h : retiredDead s = true) :
    (∀ t ∈ playClipSteps s i, liveSources t ≤ 1 ∧ runningEngines t ≤ 1) ∧
    retiredDead (playClip s i) = true := by
  by_cases hb : i < s.clips.length
  · have hdead := stop_all_dead s h
    obtain ⟨hc, hr⟩ := allDead_filters _ hdead
    constructor
    · intro t ht
      unfold playClipSteps at ht
      rw [if_pos hb] at ht
      simp only [List.mem_cons, List.not_mem_nil, or_false] at ht
      rcases ht with rfl | rfl | rfl | rfl | rfl | rfl
      · exact retired_counts _ h
      · unfold liveSources runningEngines
        simp [hc, hr]
      · unfold liveSources runningEngines
        simp [hc, hr]
      · unfold liveSources runningEngines
        simp [List.filter_cons, hc, hr]
      · unfold liveSources runningEngines
        simp [List.filter_cons, hc, hr]
      · unfold liveSources runningEngines
        simp [List.filter_cons, hc, hr]
    · rw [playClip_eq s i hb]
      unfold retiredDead
      simpa using hdead
  · constructor
    · intro t ht
      unfold playClipSteps at ht
      rw [if_neg hb] at ht
      simp only [List.mem_cons, List.not_mem_nil, or_false] at ht
      subst ht
      exact retired_counts _ h
    · unfold playClip playClipSteps
      rw [if_neg hb]
      simpa using h

/-- C2 witness: the invariant instantiated on a session whose single
engine is playing clip `B` of a three-clip catalog, replaying clip 0. -/
theorem single_engine_invariant_witness :
    (∀ t ∈ playClipSteps threeClipState 0,
        liveSources t ≤ 1 ∧ runningEngines t ≤ 1) ∧
    retiredDead (playClip threeClipState 0) = true :=
  single_engine_invariant threeClipState 0 (by decide)

/-- C1: the scheduled auto-advance is not cancelled by explicit
navigation.  On a three-clip catalog with auto-play enabled, clip `B`
(index 1) completes and schedules an advance; the user presses
"previous" during the countdown and clip `A` (index 0) starts playing;
when the scheduled callback then fires it advances anyway, so clip `B`
— the originally scheduled next position — replaces the user's choice.
The two advances race exactly as the claim forbids. -/
theorem auto_advance_not_cancelled_eval :
    (previousClip (onVideoComplete threeClipState)).current_index = some 0 ∧
    (previousClip (onVideoComplete threeClipState)).pending_advance = 1 ∧
    (timerFire (previousClip (onVideoComplete threeClipState))).current_index
      = some 1 ∧
    (timerFire (previousClip (onVideoComplete threeClipState))).pending_advance
      = 0 := by
  refine ⟨?_, ?_, ?_, ?_⟩ <;> decide

/-- Helper: the deletion body never changes the skip-confirmation flag. -/
theorem deleteClipBody_skip (s : TabState) (i : ℕ) (c : Clip) :
    (deleteClipBody s i c).skip_delete_confirmation
      = s.skip_delete_confirmation := by
  simp only [deleteClipBody]
  split
  · exact (stopPlayerOp_fields s).2.2.1
  · rw [playClip_skip]
    exact (stopPlayerOp_fields s).2.2.1

/-- Helper: field behaviour of the deletion body at a valid index. -/
theorem deleteClipBody_spec (s : TabState) (i : ℕ) (c : Clip)
    (hlen : i < s.clips.length) (hdead : retiredDead s = true) :
    (deleteClipBody s i c).clips = s.clips.eraseIdx i ∧
    (deleteClipBody s i c).trashed = s.trashed ++ [c.path] ∧
    (s.clips.length = 1 →
      (deleteClipBody s i c).current_index = none ∧
      (deleteClipBody s i c).engines.all
        (fun e => !e.capOpen && !e.running) = true) ∧
    (2 ≤ s.clips.length →
      (deleteClipBody s i c).current_index
        = some (min i (s.clips.length - 2)) ∧
      (deleteClipBody s i c).engines.head? = some ⟨true, true⟩) := by
  have hlen4 : (s.clips.eraseIdx i).length = s.clips.length - 1 :=
    List.length_eraseIdx_of_lt hlen
  simp only [deleteClipBody]
  rw [(stopPlayerOp_fields s).1, (stopPlayerOp_fields s).2.2.2.1]
  by_cases hone : s.clips.length = 1
  · have hnil : s.clips.eraseIdx i = [] :=
      List.length_eq_zero.mp (by omega)
    rw [hnil]
    refine ⟨by simp [hnil], by simp, fun _ => ⟨by simp, ?_⟩, fun h2 => ?_⟩
    · simpa using stop_all_dead s hdead
    · omega
  · have h2 : 2 ≤ s.clips.length := by omega
    have hne4 : s.clips.eraseIdx i ≠ [] := by
      intro hnil
      rw [hnil] at hlen4
      simp at hlen4
      omega
    have hemp4 : (s.clips.eraseIdx i).isEmpty = false := by
      simpa using hne4
    rw [hemp4]
    simp only [Bool.false_eq_true, if_false]
    have hj : min i ((s.clips.eraseIdx i).length - 1)
        < (s.clips.eraseIdx i).length := by omega
    rw [playClip_eq _ _ hj]
    have hsub : (s.clips.eraseIdx i).length - 1 = s.clips.length - 2 := by
      omega
    refine ⟨?_, ?_, fun h1 => absurd h1 (by omega), fun _ => ⟨?_, rfl⟩⟩
    · rw [(stopPlayerOp_fields _).1]
    · rw [(stopPlayerOp_fields _).2.2.2.1]
    · rw [hsub]

/-- C3: a confirmed delete at index `i` of an `n`-clip catalog stops the
current playback, removes exactly the record at `i` (later records shift
down), and advances to `min i (n - 2)` of the shortened catalog; deleting
the last remaining clip empties the catalog, clears `current_index` and
leaves no engine running. -/
theorem delete_confirmed_advances (s : TabState) (i : ℕ) (uc cb : Bool)
    (hidx : s.current_index = some i) (hlen : i < s.clips.length)
    (hconf : s.skip_delete_confirmation = true ∨ uc = true)
    (hdead : retiredDead s = true) :
    ∃ s', deleteClip s uc cb = some s' ∧
      s'.clips = s.clips.eraseIdx i ∧
      (∀ c, s.clips[i]? = some c → s'.trashed = s.trashed ++ [c.path]) ∧
      (s.clips.length = 1 →
        s'.current_index = none ∧
        s'.engines.all (fun e => !e.capOpen && !e.running) = true) ∧
      (2 ≤ s.clips.length →
        s'.current_index = some (min i (s.clips.length - 2)) ∧
        s'.engines.head? = some ⟨true, true⟩) := by
  have hne : s.clips ≠ [] := by
    intro hnil
    rw [hnil] at hlen
    exact absurd hlen (by simp)
  have hemp : s.clips.isEmpty = false := by simp [hne]
  have hget : s.clips[i]? = some (s.clips.get ⟨i, hlen⟩) := by
    simp
  by_cases hsk : s.skip_delete_confirmation = true
  · obtain ⟨h1, h2, h3, h4⟩ :=
      deleteClipBody_spec s i (s.clips.get ⟨i, hlen⟩) hlen hdead
    refine ⟨deleteClipBody s i (s.clips.get ⟨i, hlen⟩), ?_, h1, ?_, h3, h4⟩
    · simp [deleteClip, hidx, hemp, hget, hsk]
    · intro c2 hc2
      rw [hget] at hc2
      have hce := Option.some.inj hc2
      subst hce
      exact h2
  · have huc : uc = true := hconf.resolve_left hsk
    subst huc
    cases hcb : cb with
    | true =>
      obtain ⟨h1, h2, h3, h4⟩ :=
        deleteClipBody_spec { s with skip_delete_confirmation := true } i
          (s.clips.get ⟨i, hlen⟩) hlen hdead
      refine ⟨deleteClipBody { s with skip_delete_confirmation := true } i
          (s.clips.get ⟨i, hlen⟩), ?_, h1, ?_, h3, h4⟩
      · simp [deleteClip, hidx, hemp, hget, hsk, dialogResult]
      · intro c2 hc2
        rw [hget] at hc2
        have hce := Option.some.inj hc2
        subst hce
        exact h2
    | false =>
      obtain ⟨h1, h2, h3, h4⟩ :=
        deleteClipBody_spec s i (s.clips.get ⟨i, hlen⟩) hlen hdead
      refine ⟨deleteClipBody s i (s.clips.get ⟨i, hlen⟩), ?_, h1, ?_, h3, h4⟩
      · simp [deleteClip, hidx, hemp, hget, hsk, dialogResult]
      · intro c2 hc2
        rw [hget] at hc2
        have hce := Option.some.inj hc2
        subst hce
        exact h2

/-- C3 witness: deleting clip `B` (index 1) of the three-clip catalog. -/
theorem delete_confirmed_advances_witness :
    ∃ s', deleteClip threeClipState true false = some s' ∧
      s'.clips = threeClipState.clips.eraseIdx 1 ∧
      (∀ c, threeClipState.clips[1]? = some c →
        s'.trashed = threeClipState.trashed ++ [c.path]) ∧
      (threeClipState.clips.length = 1 →
        s'.current_index = none ∧
        s'.engines.all (fun e => !e.capOpen && !e.running) = true) ∧
      (2 ≤ threeClipState.clips.length →
        s'.current_index = some (min 1 (threeClipState.clips.length - 2)) ∧
        s'.engines.head? = some ⟨true, true⟩) :=
  delete_confirmed_advances threeClipState 1 true false rfl (by decide)
    (Or.inr rfl) (by decide)

/-- C10: declining the delete confirmation (No button or Escape) leaves
the whole session state — catalog, current index, trashed files, skip
flag — unchanged, whatever the checkbox says; and after any dialog
interaction the skip-confirmation flag is set exactly when the user
confirmed with the checkbox checked. -/
theorem decline_leaves_state_unchanged (s : TabState) (i : ℕ) (cb : Bool)
    (hidx : s.current_index = some i) (hlen : i < s.clips.length)
    (hskip : s.skip_delete_confirmation = false) :
    deleteClip s false cb = some s ∧
    (∀ uc s', deleteClip s uc cb = some s' →
      s'.skip_delete_confirmation = (uc && cb)) := by
  have hne : s.clips ≠ [] := by
    intro hnil
    rw [hnil] at hlen
    exact absurd hlen (by simp)
  have hemp : s.clips.isEmpty = false := by simp [hne]
  have hget : s.clips[i]? = some (s.clips.get ⟨i, hlen⟩) := by
    simp
  constructor
  · simp [deleteClip, hidx, hemp, hget, hskip, dialogResult]
  · intro uc s' h
    cases uc with
    | false =>
      simp [deleteClip, hidx, hemp, hget, hskip, dialogResult] at h
      rw [← h, hskip]
      rfl
    | true =>
      cases hcb : cb with
      | true =>
        rw [hcb] at h
        simp [deleteClip, hidx, hemp, hget, hskip, dialogResult] at h
        rw [← h, deleteClipBody_skip]
        rfl
      | false =>
        rw [hcb] at h
        simp [deleteClip, hidx, hemp, hget, hskip, dialogResult] at h
        rw [← h, deleteClipBody_skip, hskip]
        rfl

/-- C10 witness: declining with the checkbox checked on the three-clip
session leaves the state unchanged, and the skip flag tracks
`confirmed && checkbox`. -/
theorem decline_leaves_state_unchanged_witness :
    deleteClip threeClipState false true = some threeClipState ∧
    (∀ uc s', deleteClip threeClipState uc true = some s' →
      s'.skip_delete_confirmation = (uc && true)) :=
  decline_leaves_state_unchanged threeClipState 1 true rfl (by decide) rfl

/-- Helper: with a non-positive frame count the loop reports only the
final `1.0`. -/
theorem playbackAux_nonpos (speeds : ℕ → ℚ) (tf : ℤ) (htf : ¬ 0 < tf) :
    ∀ avail t cf, playbackAux speeds tf t cf avail = [1] := by
  intro avail
  induction avail using Nat.strong_induction_on with
  | _ avail ih =>
    intro t cf
    cases avail with
    | zero => simp [playbackAux]
    | succ a =>
      simp only [playbackAux]
      split
      · rfl
      · rw [List.nil_append]
        exact ih _ (by omega) _ _

/-- Helper: the loop always ends by reporting exactly `1.0`. -/
theorem playbackAux_getLast (speeds : ℕ → ℚ) (tf : ℤ) :
    ∀ avail t cf, (playbackAux speeds tf t cf avail).getLast? = some 1 := by
  intro avail
  induction avail using Nat.strong_induction_on with
  | _ avail ih =>
    intro t cf
    cases avail with
    | zero => simp [playbackAux]
    | succ a =>
      simp only [playbackAux]
      split
      · rfl
      · rw [List.getLast?_append, ih _ (by omega)]
        rfl

/-- Helper: every reported value lies in `[0, 1]`. -/
theorem playbackAux_bounds (speeds : ℕ → ℚ) (tf : ℤ) :
    ∀ avail t cf, ∀ q ∈ playbackAux speeds tf t cf avail,
      0 ≤ q ∧ q ≤ 1 := by
  intro avail
  induction avail using Nat.strong_induction_on with
  | _ avail ih =>
    intro t cf q hq
    cases avail with
    | zero =>
      simp only [playbackAux, List.mem_singleton] at hq
      subst hq
      norm_num
    | succ a =>
      simp only [playbackAux] at hq
      split at hq
      · simp only [List.mem_singleton] at hq
        subst hq
        norm_num
      · by_cases htf : 0 < tf
        · rw [if_pos htf, List.singleton_append, List.mem_cons] at hq
          rcases hq with rfl | hq
          · have htfq : (0 : ℚ) < (tf : ℚ) := by exact_mod_cast htf
            refine ⟨le_min (by norm_num) ?_, min_le_left _ _⟩
            positivity
          · exact ih _ (by omega) _ _ q hq
        · rw [if_neg htf, List.nil_append] at hq
          exact ih _ (by omega) _ _ q hq

/-- Helper: every value reported with `current_frame = cf` on entry is at
least `min 1 (cf / tf)`. -/
theorem playbackAux_lower (speeds : ℕ → ℚ) (tf : ℤ) (htf : 0 < tf) :
    ∀ avail t cf, ∀ q ∈ playbackAux speeds tf t cf avail,
      min 1 ((cf : ℚ) / (tf : ℚ)) ≤ q := by
  have htfq : (0 : ℚ) < (tf : ℚ) := by exact_mod_cast htf
  intro avail
  induction avail using Nat.strong_induction_on with
  | _ avail ih =>
    intro t cf q hq
    cases avail with
    | zero =>
      simp only [playbackAux, List.mem_singleton] at hq
      subst hq
      exact min_le_left _ _
    | succ a =>
      simp only [playbackAux] at hq
      split at hq
      · simp only [List.mem_singleton] at hq
        subst hq
        exact min_le_left _ _
      · rw [List.singleton_append, List.mem_cons] at hq
        have hmono : min 1 ((cf : ℚ) / (tf : ℚ)) ≤
            min 1 (((cf + 1 +
              (grabPhase a ((frame_step (speeds t)).toNat - 1)).1 : ℕ) : ℚ)
              / (tf : ℚ)) := by
          refine min_le_min le_rfl ?_
          gcongr
          have hcf : cf ≤ cf + 1 +
              (grabPhase a ((frame_step (speeds t)).toNat - 1)).1 := by omega
          exact_mod_cast hcf
        rcases hq with rfl | hq
        · exact hmono
        · exact le_trans hmono (ih _ (by omega) _ _ q hq)

/-- Helper: the reported sequence is non-decreasing. -/
theorem playbackAux_chain (speeds : ℕ → ℚ) (tf : ℤ) :
    ∀ avail t cf, List.Chain' (· ≤ ·) (playbackAux speeds tf t cf avail) := by
  by_cases htf : 0 < tf
  case neg =>
    intro avail t cf
    rw [playbackAux_nonpos speeds tf htf]
    simp
  case pos =>
    intro avail
    induction avail using Nat.strong_induction_on with
    | _ avail ih =>
      intro t cf
      cases avail with
      | zero => simp [playbackAux]
      | succ a =>
        simp only [playbackAux]
        split
        · simp
        · rw [List.singleton_append, List.chain'_cons']
          refine ⟨fun y hy => ?_, ih _ (by omega) _ _⟩
          exact playbackAux_lower speeds tf htf _ _ _ y
            (List.mem_of_mem_head? hy)

/-- C6: during a single natural playback run the progress values handed
to the progress callback are non-decreasing, all lie in `[0, 1]`, and the
final value — reported when the stream is exhausted during a read or a
skip — is exactly `1.0`.  This holds for every frame count (including 0
or a negative count from a broken file) and every live speed schedule. -/
theorem progress_monotone_bounded (speeds : ℕ → ℚ) (tf : ℤ) (avail : ℕ) :
    List.Chain' (· ≤ ·) (playbackRun speeds tf avail) ∧
    (∀ q ∈ playbackRun speeds tf avail, 0 ≤ q ∧ q ≤ 1) ∧
    (playbackRun speeds tf avail).getLast? = some 1 :=
  ⟨playbackAux_chain speeds tf avail 0 0,
   fun q hq => playbackAux_bounds speeds tf avail 0 0 q hq,
   playbackAux_getLast speeds tf avail 0 0⟩

end Trailcam
